import Mathlib

/-!
Shallow embedding of the jsonrest-go request-dispatch library
(files errors.go and jsonrest.go) and proofs about its claims.

Modelling conventions:
- Go strings are Lean `String`; Go `[]string` is `List String`.
- Go `int` is Lean `Int`.
- Go pointer cells of type `*HTTPError` are modelled by an explicit heap
  (a list of `HTTPError` cells indexed by `Nat` locations), so that the
  pointer copy `e := *unknownError; httpErr := &e` in `translateError`
  keeps its exact aliasing behaviour.
- JSON documents are modelled by the inductive `JVal`; `render` produces
  the compact textual form (the encoder in sendJSON only adds
  whitespace / indentation around the same document, which no claim is
  about).
-/

namespace Jsonrest

/-- JSON values, as far as the wire formats of this library need them. -/
inductive JVal where
  | str (s : String)
  | arr (elems : List JVal)
  | obj (fields : List (String × JVal))

/-- Escapes one character the way encoding/json escapes it inside a JSON
string literal (only the escapes relevant to the strings of this
library). -/
def escapeChar (c : Char) : String :=
  if c = '"' then "\\\""
  else if c = '\\' then "\\\\"
  else if c = '\n' then "\\n"
  else if c = '\t' then "\\t"
  else if c = '\r' then "\\r"
  else String.mk [c]

/-- Renders a JSON string literal. -/
def renderStr (s : String) : String :=
  "\"" ++ String.join (s.toList.map escapeChar) ++ "\""

/-- Joins rendered items with commas. -/
def joinComma : List String → String
  | [] => ""
  | [x] => x
  | x :: xs => x ++ "," ++ joinComma xs

mutual

/-- Compact textual rendering of a JSON value. -/
def render : JVal → String
  | .str s => renderStr s
  | .arr xs => "[" ++ joinComma (renderElems xs) ++ "]"
  | .obj fs => "\x7b" ++ joinComma (renderFields fs) ++ "\x7d"

/-- Renders each array element. -/
def renderElems : List JVal → List String
  | [] => []
  | x :: xs => render x :: renderElems xs

/-- Renders each object field as key:value. -/
def renderFields : List (String × JVal) → List String
  | [] => []
  | (k, v) :: xs => (renderStr k ++ ":" ++ render v) :: renderFields xs

end

/-- HTTPError from errors.go: code, message, details, status, and the
wrapped inner error (modelled opaquely as a string). -/
structure HTTPError where
  Code : String
  Message : String
  Details : List String
  Status : Int
  wrapped : Option String
deriving DecidableEq

/-- Error from errors.go: constructs an HTTPError with the given status,
code and message (no details, no wrapped cause). -/
def Error (status : Int) (code message : String) : HTTPError :=
  ⟨code, message, [], status, none⟩

/-- StatusCode from errors.go: returns the Status field. -/
def HTTPError.StatusCode (err : HTTPError) : Int :=
  err.Status

/-- Wrap from errors.go: stores the inner error in the wrapped field and
returns the error itself. -/
def HTTPError.Wrap (err : HTTPError) (inner : String) : HTTPError :=
  { err with wrapped := some inner }

/-- Unwrap from errors.go: returns the wrapped error, if any. -/
def HTTPError.Unwrap (err : HTTPError) : Option String :=
  err.wrapped

/-- MarshalJSON from errors.go: wraps code, message and details in an
object under the key error; details carries omitempty, so it is dropped
when the list is empty. -/
def marshalHTTPError (err : HTTPError) : JVal :=
  .obj [("error", .obj
    ([("code", .str err.Code), ("message", .str err.Message)] ++
      (if err.Details = [] then []
       else [("details", .arr (err.Details.map .str))])))]

/-- The unknownError package-level variable from errors.go. -/
def unknownError : HTTPError :=
  ⟨"unknown_error", "an unknown error occurred", [], 500, none⟩

/-- Replaces each tab by two spaces, as strings.Replace with count -1
does in dumpError. -/
def replaceTabsL : List Char → List Char
  | [] => []
  | c :: cs => if c = '\t' then ' ' :: ' ' :: replaceTabsL cs
               else c :: replaceTabsL cs

/-- Splits on newline characters, as strings.Split does in dumpError:
the result always has one entry more than the number of newlines. -/
def splitNlL : List Char → List (List Char)
  | [] => [[]]
  | c :: cs =>
      if c = '\n' then [] :: splitNlL cs
      else
        match splitNlL cs with
        | [] => [[c]]
        | l :: ls => (c :: l) :: ls

/-- dumpError from errors.go: stringify (the argument is already the
string representation of the error), tabs to two spaces, split on
newline. -/
def dumpError (s : String) : List String :=
  (splitNlL (replaceTabsL s.toList)).map (fun l => String.mk l)

/-- Heap of HTTPError cells; a Go pointer of type star-HTTPError is a
location into this heap. -/
structure Heap where
  cells : List HTTPError
deriving DecidableEq

/-- Dereferences a pointer (location). -/
def Heap.get (h : Heap) (loc : Nat) : HTTPError :=
  h.cells.getD loc unknownError

/-- Allocates a fresh cell holding v and returns its location. -/
def Heap.alloc (h : Heap) (v : HTTPError) : Nat × Heap :=
  (h.cells.length, ⟨h.cells ++ [v]⟩)

/-- Overwrites the cell at loc with v. -/
def Heap.set (h : Heap) (loc : Nat) (v : HTTPError) : Heap :=
  ⟨h.cells.set loc v⟩

/-- The location of the package-level unknownError variable. -/
def unknownLoc : Nat := 0

/-- The initial heap: only the unknownError singleton is allocated. -/
def initHeap : Heap := ⟨[unknownError]⟩

/-- A value satisfying the HTTPErrorResponse interface: either a pointer
to an HTTPError cell, or a third-party error type with its own status
code and its own JSON serialization. -/
inductive HTTPErrorResponse where
  | httpPtr (loc : Nat)
  | custom (status : Int) (body : JVal)

/-- A Go error value as seen by the pipeline: either it satisfies the
HTTPErrorResponse interface, or it is a plain error carrying only its
string representation. -/
inductive GoError where
  | resp (r : HTTPErrorResponse)
  | plain (s : String)

/-- StatusCode of an HTTPErrorResponse value, read in heap h. -/
def statusCodeOf (h : Heap) : HTTPErrorResponse → Int
  | .httpPtr loc => (h.get loc).StatusCode
  | .custom status _ => status

/-- JSON serialization of an HTTPErrorResponse value, read in heap h:
an HTTPError pointer marshals through MarshalJSON, a third-party error
marshals as its own shape. -/
def serializeResp (h : Heap) : HTTPErrorResponse → JVal
  | .httpPtr loc => marshalHTTPError (h.get loc)
  | .custom _ body => body

/-- translateError from errors.go: a type assertion to
HTTPErrorResponse; on success the error passes through unmodified; on
failure a shallow copy of the unknownError cell is allocated and, when
dumpInternalError is set, its Details field is filled from dumpError. -/
def translateError (h : Heap) (err : GoError) (dumpInternalError : Bool) :
    HTTPErrorResponse × Heap :=
  match err with
  | .resp errResponse => (errResponse, h)
  | .plain s =>
      let e := h.get unknownLoc
      let (loc, h1) := h.alloc e
      let h2 := if dumpInternalError then h1.set loc { e with Details := dumpError s }
                else h1
      (.httpPtr loc, h2)

/-- The successful result value (interface value) returned by an
endpoint: either a Response struct carrying a status code and body, or
any other value (none models a nil interface value). -/
inductive GoVal where
  | response (StatusCode : Int) (Body : Option JVal)
  | other (v : Option JVal)

/-- What one endpoint call does: return a value, return an error, or
panic. -/
inductive EOutcome where
  | ok (v : GoVal)
  | err (e : GoError)
  | panicked

/-- An endpoint of the pipeline, after the request context has been
built: it may allocate HTTPError cells, so it threads the heap. -/
def PEndpoint := Heap → EOutcome × Heap

/-- The observable response produced for one request: the content-type
header (always set by sendJSON before the status line), the status, and
the JSON body document, none when no body byte is written. -/
structure HResp where
  contentTypeSet : Bool
  status : Int
  body : Option JVal

/-- sendJSON from jsonrest.go: sets the content-type header, writes the
status line, and, unless the value is nil, encodes it as JSON. -/
def sendJSON (status : Int) (v : Option JVal) : HResp :=
  ⟨true, status, v⟩

/-- endpointToHandler from jsonrest.go: runs the endpoint under a
deferred recover; a panic is answered with status 500 and the
unknownError cell; an error goes through translateError and is sent
with its own status code and serialization; a Response value keeps its
status and body; anything else is sent with status 200. -/
def endpointToHandler (dumpErrors : Bool) (e : PEndpoint) (h : Heap) :
    HResp × Heap :=
  match e h with
  | (.panicked, h1) => (sendJSON 500 (some (marshalHTTPError (h1.get unknownLoc))), h1)
  | (.err ge, h1) =>
      let (httpErr, h2) := translateError h1 ge dumpErrors
      (sendJSON (statusCodeOf h2 httpErr) (some (serializeResp h2 httpErr)), h2)
  | (.ok (.response sc body), h1) => (sendJSON sc body, h1)
  | (.ok (.other v), h1) => (sendJSON 200 v, h1)

/-- Serves a sequence of requests (each resolved to its endpoint) one
after the other, threading the heap: the serving process keeps going
after every request. -/
def serveAll (dumpErrors : Bool) : List PEndpoint → Heap → List HResp × Heap
  | [], h => ([], h)
  | e :: es, h =>
      let (resp, h1) := endpointToHandler dumpErrors e h
      let (rest, h2) := serveAll dumpErrors es h1
      (resp :: rest, h2)

/-- The default not-found endpoint from notFoundHandler in jsonrest.go:
returns Error(404, not_found, url not found). -/
def notFoundEndpoint : PEndpoint := fun h =>
  let (loc, h1) := h.alloc (Error 404 "not_found" "url not found")
  (.err (.resp (.httpPtr loc)), h1)

/-- The routing state a dispatch consults: the registered (method, path)
table, the configured custom not-found handler (none when absent, in
which case NewRouter installed notFoundHandler), and the DumpErrors
flag. -/
structure DispatchRouter where
  routes : List ((String × String) × PEndpoint)
  notFound : Option (Heap → HResp × Heap)
  DumpErrors : Bool

/-- Resolves (method, path) in the shared table; exact matching stands
in for the external httprouter trie. -/
def lookupRoute (r : DispatchRouter) (method path : String) : Option PEndpoint :=
  (r.routes.find? (fun kv => kv.1 = (method, path))).map (fun kv => kv.2)

/-- One request through the router: a matched route runs through
endpointToHandler; with no match the custom not-found handler is called
directly when configured, and otherwise the default notFoundHandler
(the not-found endpoint run through endpointToHandler, with no
middleware) answers. -/
def dispatch (r : DispatchRouter) (method path : String) (h : Heap) :
    HResp × Heap :=
  match lookupRoute r method path with
  | some e => endpointToHandler r.DumpErrors e h
  | none =>
      match r.notFound with
      | some nf => nf h
      | none => endpointToHandler r.DumpErrors notFoundEndpoint h

/-- Middleware over an endpoint type: a function wrapping an endpoint. -/
def Mw (α : Type) := α → α

/-- The inner loop of applyMiddleware in jsonrest.go: for one router,
e = r.middleware[i](e) for i from the last index down to 0, so the
element at index 0 ends up outermost. -/
def applyGroupMws {α : Type} (ms : List (Mw α)) (e : α) : α :=
  ms.foldr (fun m acc => m acc) e

/-- The mutable router graph at some instant: routers are numbered, each
has its own middleware list and an optional parent. Use mutates the
entry of one router, which is why dispatch sees lists current at
request time. -/
structure RouterSys (α : Type) where
  mws : List (List (Mw α))
  parents : List (Option Nat)

/-- The middleware list of router rid. -/
def RouterSys.mwsOf {α : Type} (sys : RouterSys α) (rid : Nat) : List (Mw α) :=
  sys.mws.getD rid []

/-- The parent pointer of router rid. -/
def RouterSys.parentOf {α : Type} (sys : RouterSys α) (rid : Nat) : Option Nat :=
  sys.parents.getD rid none

/-- The outer loop of applyMiddleware in jsonrest.go: apply this
middleware of this router, then continue at the parent until there is
none.
The fuel argument bounds the walk; Group only ever links a new router
to an existing one, so parent ids strictly decrease and fuel rid is
always enough. -/
def applyMwChain {α : Type} (sys : RouterSys α) : Nat → Nat → α → α
  | 0, rid, e => applyGroupMws (sys.mwsOf rid) e
  | fuel + 1, rid, e =>
      let e1 := applyGroupMws (sys.mwsOf rid) e
      match sys.parentOf rid with
      | none => e1
      | some p => applyMwChain sys fuel p e1

/-- applyMiddleware from jsonrest.go: the returned closure re-reads the
middleware lists of the group chain each time it runs, so it is applied
to the system state current at call time. -/
def applyMiddleware {α : Type} (sys : RouterSys α) (rid : Nat) (e : α) : α :=
  applyMwChain sys rid rid e

/-- A registered route: Handle captures the endpoint and the pointer to
its router (the id), not the middleware lists themselves. -/
structure Route (α : Type) where
  rid : Nat
  endpoint : α

/-- Handle from jsonrest.go, restricted to what it stores per route. -/
def Handle {α : Type} (rid : Nat) (e : α) : Route α :=
  ⟨rid, e⟩

/-- Dispatching a matched route: applyMiddleware runs against the
router system as it is at request time. -/
def dispatchRoute {α : Type} (sys : RouterSys α) (rt : Route α) : α :=
  applyMiddleware sys rt.rid rt.endpoint

/-- Use from jsonrest.go: appends to the middleware list of router rid,
in place. -/
def useAt {α : Type} (sys : RouterSys α) (rid : Nat) (ms : List (Mw α)) :
    RouterSys α :=
  { sys with mws := sys.mws.set rid (sys.mws.getD rid [] ++ ms) }

/-- Endpoints used to observe execution order: they append event labels
to a trace. -/
def TEndpoint := List String → List String

/-- A tracing middleware: logs name:in before calling the wrapped
endpoint and name:out after it returns. -/
def mkMw (name : String) : Mw TEndpoint :=
  fun next t => next (t ++ [name ++ ":in"]) ++ [name ++ ":out"]

/-- The traced handler itself. -/
def handlerE : TEndpoint := fun t => t ++ ["handler"]

/-- Splits a character list around runs of whitespace, accumulating the
current token in reverse. -/
def fieldsAux : List Char → List Char → List String
  | [], acc => if acc = [] then [] else [String.mk acc.reverse]
  | c :: cs, acc =>
      if c.isWhitespace then
        if acc = [] then fieldsAux cs []
        else String.mk acc.reverse :: fieldsAux cs []
      else fieldsAux cs (c :: acc)

/-- Fields from the strings package, as Routes uses it: split around runs
of whitespace, dropping empty tokens. -/
def goFields (s : String) : List String :=
  fieldsAux s.toList []

/-- Routes from jsonrest.go: for each entry, split the key into
whitespace-separated fields; panic (modelled as Except.error) unless
there are exactly two; otherwise register the endpoint under
(fields[0], fields[1]). The map is processed as a list of entries. -/
def routes {α : Type} : List (String × α) →
    Except String (List ((String × String) × α))
  | [] => .ok []
  | (p, e) :: rest =>
      match goFields p with
      | [method, path] =>
          match routes rest with
          | .ok rs => .ok (((method, path), e) :: rs)
          | .error msg => .error msg
      | _ => .error ("invalid RouteMap: " ++ p)

/-- Applies translateError over a whole sequence of (error, dump flag)
calls, keeping only the final heap. -/
def translateSeqHeap (h : Heap) : List (GoError × Bool) → Heap
  | [] => h
  | (e, d) :: rest => translateSeqHeap (translateError h e d).2 rest

theorem heap_get_alloc (h : Heap) (v : HTTPError) :
    ((h.alloc v).2).get (h.alloc v).1 = v := by
  simp [Heap.alloc, Heap.get, List.getD_append_right h.cells [v] unknownError
    h.cells.length (Nat.le_refl _)]

theorem heap_get_alloc_lt (h : Heap) (v : HTTPError) (i : Nat)
    (hi : i < h.cells.length) : ((h.alloc v).2).get i = h.get i := by
  simp only [Heap.alloc, Heap.get]
  exact List.getD_append h.cells [v] unknownError i hi

theorem heap_get_set_self (h : Heap) (i : Nat) (v : HTTPError)
    (hi : i < h.cells.length) : (h.set i v).get i = v := by
  simp only [Heap.set, Heap.get]
  rw [List.getD_eq_getElem _ _ (by simpa using hi)]
  simp

theorem heap_get_set_ne (h : Heap) (i j : Nat) (v : HTTPError) (hne : i ≠ j) :
    (h.set i v).get j = h.get j := by
  simp only [Heap.set, Heap.get]
  rw [List.getD_eq_getD_get?, List.getD_eq_getD_get?]
  congr 1
  simp only [List.get?_eq_getElem?]
  exact List.getElem?_set_ne hne

theorem heap_alloc_length (h : Heap) (v : HTTPError) :
    ((h.alloc v).2).cells.length = h.cells.length + 1 := by
  simp [Heap.alloc]

theorem heap_set_length (h : Heap) (i : Nat) (v : HTTPError) :
    (h.set i v).cells.length = h.cells.length := by
  simp [Heap.set]

theorem splitNlL_ne_nil (l : List Char) : splitNlL l ≠ [] := by
  induction l with
  | nil => simp [splitNlL]
  | cons c cs ih =>
      simp only [splitNlL]
      split
      · simp
      · cases hcs : splitNlL cs with
        | nil => simp
        | cons x xs => simp

theorem dumpError_ne_nil (s : String) : dumpError s ≠ [] := by
  simp [dumpError, splitNlL_ne_nil]

theorem translateError_preserves (h : Heap) (err : GoError) (dump : Bool)
    (hlen : 0 < h.cells.length) :
    ((translateError h err dump).2).get unknownLoc = h.get unknownLoc ∧
      h.cells.length ≤ ((translateError h err dump).2).cells.length := by
  cases err with
  | resp r => simp [translateError]
  | plain s =>
      simp only [translateError]
      split
      · constructor
        · rw [heap_get_set_ne _ _ _ _ (by simp only [Heap.alloc, unknownLoc]; omega)]
          exact heap_get_alloc_lt h _ unknownLoc hlen
        · rw [heap_set_length, heap_alloc_length]; omega
      · exact ⟨heap_get_alloc_lt h _ unknownLoc hlen, by rw [heap_alloc_length]; omega⟩

theorem translateSeqHeap_preserves (ops : List (GoError × Bool)) (h : Heap)
    (hlen : 0 < h.cells.length) :
    (translateSeqHeap h ops).get unknownLoc = h.get unknownLoc ∧
      h.cells.length ≤ (translateSeqHeap h ops).cells.length := by
  induction ops generalizing h with
  | nil => simp [translateSeqHeap]
  | cons op rest ih =>
      obtain ⟨e, d⟩ := op
      simp only [translateSeqHeap]
      have step := translateError_preserves h e d hlen
      have := ih (translateError h e d).2 (Nat.lt_of_lt_of_le hlen step.2)
      exact ⟨this.1.trans step.1, Nat.le_trans step.2 this.2⟩

theorem applyGroupMws_append {α : Type} (l1 l2 : List (Mw α)) (e : α) :
    applyGroupMws (l1 ++ l2) e = applyGroupMws l1 (applyGroupMws l2 e) := by
  simp [applyGroupMws, List.foldr_append]

theorem applyGroupMws_named (names : List String) (e : TEndpoint)
    (t : List String) :
    applyGroupMws (names.map mkMw) e t =
      e (t ++ names.map (fun n => n ++ ":in")) ++
        (names.map (fun n => n ++ ":out")).reverse := by
  induction names generalizing t with
  | nil => simp [applyGroupMws]
  | cons n ns ih =>
      simp only [List.map_cons, applyGroupMws, List.foldr_cons, mkMw]
      have := ih (t ++ [n ++ ":in"])
      simp only [applyGroupMws] at this
      rw [this]
      simp [List.append_assoc]

/-- C1: on a root to child group chain with middleware lists [A, B] on the
root and [C, D] on the child, dispatching a route registered on the child
runs the before logic in the order A, B, C, D, then the handler, and the
after logic in the order D, C, B, A; and within a single group the list
[m1, m2, m3] around endpoint e composes as m1 (m2 (m3 e)), so the earlier
registered middleware wraps outer. -/
theorem middleware_composition_order (a b c d : String) (t0 : List String)
    (m1 m2 m3 : Mw TEndpoint) (e : TEndpoint) :
    dispatchRoute
        (⟨[[mkMw a, mkMw b], [mkMw c, mkMw d]], [none, some 0]⟩ :
          RouterSys TEndpoint)
        (Handle 1 handlerE) t0 =
      t0 ++ [a ++ ":in", b ++ ":in", c ++ ":in", d ++ ":in", "handler",
             d ++ ":out", c ++ ":out", b ++ ":out", a ++ ":out"] ∧
    applyGroupMws [m1, m2, m3] e = m1 (m2 (m3 e)) := by
  refine ⟨?_, rfl⟩
  show mkMw a (mkMw b (mkMw c (mkMw d handlerE))) t0 = _
  simp [mkMw, handlerE]

/-- C5: a route stores only its endpoint and the reference to its group;
middleware appended with Use to a group of the chain after the route was
registered still applies on dispatch, because the chain is re-walked from
the lists current at request time: before the Use the trace carries no x
events, after Use on the root the x events appear innermost of the root
list. -/
theorem use_after_registration_applies (as cs : List String) (x : String)
    (t0 : List String) :
    dispatchRoute
        (useAt (⟨[as.map mkMw, cs.map mkMw], [none, some 0]⟩ :
            RouterSys TEndpoint) 0 [mkMw x])
        (Handle 1 handlerE) t0 =
      t0 ++ as.map (fun n => n ++ ":in") ++ [x ++ ":in"]
         ++ cs.map (fun n => n ++ ":in") ++ ["handler"]
         ++ (cs.map (fun n => n ++ ":out")).reverse ++ [x ++ ":out"]
         ++ (as.map (fun n => n ++ ":out")).reverse ∧
    dispatchRoute
        (⟨[as.map mkMw, cs.map mkMw], [none, some 0]⟩ : RouterSys TEndpoint)
        (Handle 1 handlerE) t0 =
      t0 ++ as.map (fun n => n ++ ":in") ++ cs.map (fun n => n ++ ":in")
         ++ ["handler"] ++ (cs.map (fun n => n ++ ":out")).reverse
         ++ (as.map (fun n => n ++ ":out")).reverse := by
  constructor
  · show applyGroupMws (as.map mkMw ++ [mkMw x])
        (applyGroupMws (cs.map mkMw) handlerE) t0 = _
    have hx : as.map mkMw ++ [mkMw x] = (as ++ [x]).map mkMw := by
      simp [List.map_append]
    rw [hx, applyGroupMws_named, applyGroupMws_named, handlerE]
    simp [List.map_append, List.append_assoc]
  · show applyGroupMws (as.map mkMw)
        (applyGroupMws (cs.map mkMw) handlerE) t0 = _
    rw [applyGroupMws_named, applyGroupMws_named, handlerE]

/-- C3: an error satisfying the HTTPErrorResponse capability passes through
translateError unmodified for every value of the dump flag, and when an
endpoint returns it, its StatusCode is the response status verbatim and its
own serialization is the response body. -/
theorem http_error_passthrough (r : HTTPErrorResponse) (dump : Bool)
    (h : Heap) :
    translateError h (.resp r) dump = (r, h) ∧
    endpointToHandler dump (fun hh => (.err (.resp r), hh)) h =
      (sendJSON (statusCodeOf h r) (some (serializeResp h r)), h) :=
  ⟨rfl, rfl⟩

/-- C8: a Response value returned by an endpoint keeps its status code and
body; any other successful value is sent with status 200; and a nil body
still sets the content-type header and the status line while writing no
body document. -/
theorem success_encoding (dump : Bool) (h : Heap) (sc st : Int)
    (body v : Option JVal) :
    endpointToHandler dump (fun hh => (.ok (.response sc body), hh)) h =
      (sendJSON sc body, h) ∧
    endpointToHandler dump (fun hh => (.ok (.other v), hh)) h =
      (sendJSON 200 v, h) ∧
    sendJSON st none = ⟨true, st, none⟩ :=
  ⟨rfl, rfl, rfl⟩

/-- C6: MarshalJSON of any HTTPError is exactly one object with the single
key error, whose value is an object with keys code and message followed by
details exactly when the details list is nonempty, each carrying the
corresponding field; and Wrap only stores the cause, returning the error
with every serialized field intact, so the serialization is unchanged. -/
theorem marshal_serialization_shape (e : HTTPError) (inner : String) :
    (∃ fields, marshalHTTPError e = .obj [("error", .obj fields)] ∧
      fields.map Prod.fst =
        (if e.Details = [] then ["code", "message"]
         else ["code", "message", "details"]) ∧
      fields.lookup "code" = some (.str e.Code) ∧
      fields.lookup "message" = some (.str e.Message) ∧
      (e.Details ≠ [] →
        fields.lookup "details" = some (.arr (e.Details.map .str))) ∧
      (e.Details = [] → fields.lookup "details" = none)) ∧
    HTTPError.Wrap e inner = { e with wrapped := some inner } ∧
    marshalHTTPError (HTTPError.Wrap e inner) = marshalHTTPError e := by
  refine ⟨?_, rfl, rfl⟩
  by_cases hd : e.Details = []
  · refine ⟨[("code", .str e.Code), ("message", .str e.Message)],
      by simp [marshalHTTPError, hd], by simp [hd], by simp [List.lookup],
      by simp [List.lookup], by simp [hd], by simp [List.lookup]⟩
  · refine ⟨[("code", .str e.Code), ("message", .str e.Message),
        ("details", .arr (e.Details.map .str))],
      by simp [marshalHTTPError, hd], by simp [hd], by simp [List.lookup],
      by simp [List.lookup], by simp [List.lookup], by simp [hd]⟩

theorem marshal_serialization_shape_witness :
    HTTPError.Wrap (Error 400 "bad_request" "bad body") "cause" =
      { Error 400 "bad_request" "bad body" with wrapped := some "cause" } :=
  (marshal_serialization_shape (Error 400 "bad_request" "bad body")
    "cause").2.1

theorem translateError_plain (h : Heap) (s : String) (dump : Bool)
    (_hlen : 0 < h.cells.length) (hinit : h.get unknownLoc = unknownError) :
    (translateError h (.plain s) dump).1 = .httpPtr h.cells.length ∧
    ((translateError h (.plain s) dump).2).get h.cells.length =
      (if dump then { unknownError with Details := dumpError s }
       else unknownError) := by
  cases dump with
  | false =>
      refine ⟨rfl, ?_⟩
      show ((h.alloc (h.get unknownLoc)).2).get h.cells.length = _
      rw [show h.cells.length = (h.alloc (h.get unknownLoc)).1 from rfl,
        heap_get_alloc, hinit]
      simp
  | true =>
      refine ⟨rfl, ?_⟩
      show (((h.alloc (h.get unknownLoc)).2).set h.cells.length
          { h.get unknownLoc with Details := dumpError s }).get
            h.cells.length = _
      rw [heap_get_set_self _ _ _ (by rw [heap_alloc_length]; omega), hinit]
      simp

theorem endpointToHandler_plain (s : String) (dump : Bool) (h : Heap)
    (hlen : 0 < h.cells.length) (hinit : h.get unknownLoc = unknownError) :
    endpointToHandler dump (fun hh => (.err (.plain s), hh)) h =
      (⟨true, 500, some (marshalHTTPError
          (if dump then { unknownError with Details := dumpError s }
           else unknownError))⟩,
       (translateError h (.plain s) dump).2) := by
  rcases hE : translateError h (.plain s) dump with ⟨r, h2⟩
  have hr : r = .httpPtr h.cells.length := by
    have h1 := (translateError_plain h s dump hlen hinit).1
    rw [hE] at h1; exact h1
  have hg : h2.get h.cells.length =
      (if dump then { unknownError with Details := dumpError s }
       else unknownError) := by
    have h1 := (translateError_plain h s dump hlen hinit).2
    rw [hE] at h1; exact h1
  simp only [endpointToHandler, hE, hr, statusCodeOf, serializeResp, sendJSON,
    hg]
  cases dump <;> simp [HTTPError.StatusCode, unknownError]

/-- C2: an error value without the StatusCode capability, returned by an
endpoint, yields exactly status 500; with the dump flag off the body is
exactly the unknown-error envelope without details, and with the flag on
the body is the same envelope enriched with a nonempty details list built
from the error string, tabs replaced by two spaces and one entry per
line. -/
theorem unknown_error_translation (s : String) (dump : Bool) (h : Heap)
    (hlen : 0 < h.cells.length) (hinit : h.get unknownLoc = unknownError) :
    (endpointToHandler dump (fun hh => (.err (.plain s), hh)) h).1.status =
        500 ∧
    ((endpointToHandler false (fun hh => (.err (.plain s), hh)) h).1.body =
        some (marshalHTTPError unknownError) ∧
      render (marshalHTTPError unknownError) =
        "\x7b\"error\":\x7b\"code\":\"unknown_error\",\"message\":\"an unknown error occurred\"\x7d\x7d") ∧
    ((endpointToHandler true (fun hh => (.err (.plain s), hh)) h).1.body =
        some (marshalHTTPError
          { unknownError with Details := dumpError s }) ∧
      dumpError s ≠ []) := by
  refine ⟨?_, ⟨?_, by decide⟩, ⟨?_, dumpError_ne_nil s⟩⟩
  · rw [endpointToHandler_plain s dump h hlen hinit]
  · rw [endpointToHandler_plain s false h hlen hinit]; simp
  · rw [endpointToHandler_plain s true h hlen hinit]; simp

theorem unknown_error_translation_witness :
    0 < initHeap.cells.length ∧ initHeap.get unknownLoc = unknownError ∧
    (endpointToHandler false (fun hh => (.err (.plain "boom"), hh))
      initHeap).1.status = 500 :=
  ⟨by decide, rfl,
    (unknown_error_translation "boom" false initHeap (by decide) rfl).1⟩

/-- C4: an endpoint invocation that panics is answered, by the recover in
endpointToHandler, with status 500 and the unknown-error envelope, and
serving goes on: the remaining requests produce exactly what they would
have produced anyway. -/
theorem panic_recovered (dump : Bool) (h : Heap) (es : List PEndpoint)
    (hinit : h.get unknownLoc = unknownError) :
    endpointToHandler dump (fun hh => (.panicked, hh)) h =
      (⟨true, 500, some (marshalHTTPError unknownError)⟩, h) ∧
    serveAll dump ((fun hh => (.panicked, hh)) :: es) h =
      ((⟨true, 500, some (marshalHTTPError unknownError)⟩ : HResp) ::
        (serveAll dump es h).1, (serveAll dump es h).2) := by
  have h1 : endpointToHandler dump (fun hh => ((.panicked : EOutcome), hh)) h =
      (⟨true, 500, some (marshalHTTPError unknownError)⟩, h) := by
    simp only [endpointToHandler, sendJSON, hinit]
  refine ⟨h1, ?_⟩
  rcases hS : serveAll dump es h with ⟨rest, h2⟩
  simp only [serveAll, h1, hS]

theorem panic_recovered_witness :
    initHeap.get unknownLoc = unknownError ∧
    endpointToHandler false (fun hh => (.panicked, hh)) initHeap =
      (⟨true, 500, some (marshalHTTPError unknownError)⟩, initHeap) :=
  ⟨rfl, (panic_recovered false initHeap [] rfl).1⟩

/-- C7: on a request matching no registered route, a configured custom
not-found handler is invoked directly, outside the pipeline; without one
the default handler answers 404 with exactly the not-found envelope. -/
theorem not_found_handling (r : DispatchRouter) (method path : String)
    (h : Heap) (hmiss : lookupRoute r method path = none) :
    (∀ nf, r.notFound = some nf → dispatch r method path h = nf h) ∧
    (r.notFound = none →
      dispatch r method path h =
        (⟨true, 404,
            some (marshalHTTPError (Error 404 "not_found" "url not found"))⟩,
          (h.alloc (Error 404 "not_found" "url not found")).2) ∧
      render (marshalHTTPError (Error 404 "not_found" "url not found")) =
        "\x7b\"error\":\x7b\"code\":\"not_found\",\"message\":\"url not found\"\x7d\x7d") := by
  constructor
  · intro nf hnf
    simp [dispatch, hmiss, hnf]
  · intro hnone
    refine ⟨?_, by decide⟩
    have hget := heap_get_alloc h (Error 404 "not_found" "url not found")
    simp only [Heap.alloc] at hget
    simp only [dispatch, hmiss, hnone, endpointToHandler, notFoundEndpoint,
      translateError, statusCodeOf, serializeResp, sendJSON, Heap.alloc, hget,
      HTTPError.StatusCode]
    simp [Error]

theorem not_found_handling_witness :
    lookupRoute ⟨[], none, false⟩ "GET" "/missing" = none ∧
    dispatch ⟨[], none, false⟩ "GET" "/missing" initHeap =
      (⟨true, 404,
          some (marshalHTTPError (Error 404 "not_found" "url not found"))⟩,
        (initHeap.alloc (Error 404 "not_found" "url not found")).2) :=
  ⟨rfl, ((not_found_handling ⟨[], none, false⟩ "GET" "/missing" initHeap
    rfl).2 rfl).1⟩

/-- C9: bulk registration through Routes fails with the invalid RouteMap
panic exactly when some key is not two whitespace-separated tokens, and
when every key is well formed each endpoint is registered under the method
given by the first token and the path given by the second. -/
theorem routes_bulk_registration {α : Type} (m : List (String × α)) :
    ((∃ pe ∈ m, (goFields pe.1).length ≠ 2) ↔
      ∃ msg, routes m = .error msg) ∧
    ((∀ pe ∈ m, (goFields pe.1).length = 2) →
      routes m = .ok (m.map (fun pe =>
        (((goFields pe.1).getD 0 "", (goFields pe.1).getD 1 ""), pe.2)))) := by
  induction m with
  | nil => exact ⟨by simp [routes], fun _ => by simp [routes]⟩
  | cons pe rest ih =>
      obtain ⟨p, e⟩ := pe
      rcases hgf : goFields p with _ | ⟨a, _ | ⟨b, _ | ⟨c, tl⟩⟩⟩
      · refine ⟨⟨fun _ => ⟨"invalid RouteMap: " ++ p, by simp [routes, hgf]⟩,
          fun _ => ⟨(p, e), by simp, by simp [hgf]⟩⟩, fun hall => ?_⟩
        have := hall (p, e) (by simp)
        simp [hgf] at this
      · refine ⟨⟨fun _ => ⟨"invalid RouteMap: " ++ p, by simp [routes, hgf]⟩,
          fun _ => ⟨(p, e), by simp, by simp [hgf]⟩⟩, fun hall => ?_⟩
        have := hall (p, e) (by simp)
        simp [hgf] at this
      · constructor
        · constructor
          · rintro ⟨q, hq, hbad⟩
            rcases List.mem_cons.mp hq with hq | hq
            · subst hq; simp [hgf] at hbad
            · obtain ⟨msg, hmsg⟩ := ih.1.mp ⟨q, hq, hbad⟩
              exact ⟨msg, by simp [routes, hgf, hmsg]⟩
          · rintro ⟨msg, hmsg⟩
            rcases hR : routes rest with msg0 | rs
            · obtain ⟨q, hq, hbad⟩ := ih.1.mpr ⟨msg0, hR⟩
              exact ⟨q, List.mem_cons_of_mem _ hq, hbad⟩
            · simp [routes, hgf, hR] at hmsg
        · intro hall
          have hrest := ih.2 (fun q hq => hall q (List.mem_cons_of_mem _ hq))
          simp [routes, hgf, hrest]
      · refine ⟨⟨fun _ => ⟨"invalid RouteMap: " ++ p, by simp [routes, hgf]⟩,
          fun _ => ⟨(p, e), by simp, by simp [hgf]⟩⟩, fun hall => ?_⟩
        have := hall (p, e) (by simp)
        simp [hgf] at this

theorem routes_bulk_registration_witness :
    (∀ pe ∈ [("GET /ping", 1), ("POST /users", 2)],
      (goFields pe.1).length = 2) ∧
    routes [("GET /ping", 1), ("POST /users", 2)] =
      .ok [(("GET", "/ping"), 1), (("POST", "/users"), 2)] :=
  ⟨by decide, by
    rw [(routes_bulk_registration
      [("GET /ping", 1), ("POST /users", 2)]).2 (by decide)]
    rfl⟩

/-- C10: translateError never mutates the unknownError cell: after any
sequence of translations with any errors and dump flags, the singleton
still equals its initial value (code unknown_error, message an unknown
error occurred, status 500, no details), and a dump-off translation done
afterwards still produces a copy without details. -/
theorem unknown_error_singleton_immutable (h : Heap)
    (ops : List (GoError × Bool)) (s : String)
    (hlen : 0 < h.cells.length) (hinit : h.get unknownLoc = unknownError) :
    (translateSeqHeap h ops).get unknownLoc = unknownError ∧
    (translateError (translateSeqHeap h ops) (.plain s) false).1 =
      .httpPtr (translateSeqHeap h ops).cells.length ∧
    ((translateError (translateSeqHeap h ops) (.plain s) false).2).get
        (translateSeqHeap h ops).cells.length = unknownError := by
  have hpres := translateSeqHeap_preserves ops h hlen
  have hlen2 : 0 < (translateSeqHeap h ops).cells.length :=
    Nat.lt_of_lt_of_le hlen hpres.2
  have hget : (translateSeqHeap h ops).get unknownLoc = unknownError :=
    hpres.1.trans hinit
  have hp := translateError_plain (translateSeqHeap h ops) s false hlen2 hget
  exact ⟨hget, hp.1, by simpa using hp.2⟩

theorem unknown_error_singleton_immutable_witness :
    0 < initHeap.cells.length ∧ initHeap.get unknownLoc = unknownError ∧
    (translateSeqHeap initHeap [(.plain "a", true)]).get unknownLoc =
      unknownError :=
  ⟨by decide, rfl,
    (unknown_error_singleton_immutable initHeap [(.plain "a", true)] "b"
      (by decide) rfl).1⟩

end Jsonrest
